import Mathlib

/-!
Verification of the tool-execution and multi-agent orchestration core of the
oh-my-pi repository, as a shallow embedding in Lean 4.

Embedded components (each section names the source file it is translated from):

* `StreamingOutput` — `packages/coding-agent/src/core/streaming-output.ts`
  (`OutputSink`: `#pushSanitized`, `#fileSink`, `push`, `createInput`, `dump`).
* `EventBusM` — `packages/coding-agent/src/core/event-bus.ts`
  (`SimpleEventEmitter`, `createEventBus`).
* `PrintModeM` — `packages/coding-agent/src/modes/print-mode.ts`
  (`ToolExecutionComponent`: `updateArgs`, `setArgsComplete`,
  `maybeComputeEditDiff`, `updateResult`).
* `SwarmExecutor` — `packages/swarm-extension/src/swarm/executor.ts`
  (`executeSwarmAgent`, `buildSystemPrompt`).

Modelling conventions: JavaScript strings are modelled as `List Char`
(`String` for the tool/executor sections where only whole-string equality
matters); all concrete inputs in the theorems are ASCII, where the JS
`string.length` / `slice` unit count coincides with the character count.
`Buffer.byteLength` is the UTF-8 byte length, modelled via `Char.utf8Size`.
Promise-based sequencing is modelled by explicit state passing: `OutputSink`
chains every `push` on a single pending promise, so the sanitized chunks are
applied strictly in call order, which the fold in `runPushes` captures.
-/

namespace StreamingOutput

/-- UTF-8 byte length of a text chunk, modelling `Buffer.byteLength(data)`. -/
def utf8Len (s : List Char) : Nat := (s.map Char.utf8Size).sum

/-- State of one `OutputSink` (streaming-output.ts, class fields).
`buffer` models `#buffer`; `file` models `#file` — `some c` means the backing
file has been created and currently holds contents `c` (the path itself is
abstracted away; `file.isSome` models `fullOutputPath` being set);
`bytesWritten` models `#bytesWritten`, which in the source is initialised to 0,
read in the overflow test, and never assigned anywhere else — the embedding
therefore never updates it either. -/
structure SinkState where
  buffer : List Char
  file : Option (List Char)
  bytesWritten : Nat
deriving Repr, DecidableEq

/-- Initial sink state: empty buffer, no file, `#bytesWritten = 0`. -/
def initSink : SinkState := { buffer := [], file := none, bytesWritten := 0 }

/-- Translation of `OutputSink.#pushSanitized(data)` for spill threshold `T`:
compute `dataBytes`, decide overflow (`dataBytes + #bytesWritten > T` or a
file sink already exists), on overflow obtain the file sink — `#fileSink()`
creates it lazily, seeding it with the entire current buffer — then append
`data` to the buffer and (if spilling) to the file, and finally cut the
buffer back to its last `T` units when it exceeds `T`.  JS `slice(-T)` with
`T = 0` is `slice(0)`, the whole string, which the `T = 0` branch mirrors. -/
def pushSanitized (T : Nat) (s : SinkState) (data : List Char) : SinkState :=
  let dataBytes := utf8Len data
  let overflow := T < dataBytes + s.bytesWritten ∨ s.file.isSome
  let file0 := if overflow then some (s.file.getD s.buffer) else s.file
  let buffer1 := s.buffer ++ data
  let file1 := file0.map (fun c => c ++ data)
  let buffer2 :=
    if buffer1.length ≤ T then buffer1
    else if T = 0 then buffer1
    else buffer1.drop (buffer1.length - T)
  { buffer := buffer2, file := file1, bytesWritten := s.bytesWritten }

/-- Cumulative effect of a sequence of `push` calls on a fresh sink with
spill threshold `T`.  `push(chunk)` sanitizes the chunk (`sanitizeText`,
external to this core) and chains `#pushSanitized` on the sink's single
pending promise, so the sanitized chunks are applied strictly in call order;
the chunks given here are the already-sanitized ones. -/
def runPushes (T : Nat) (chunks : List (List Char)) : SinkState :=
  chunks.foldl (pushSanitized T) initSink

/-- Result of `dump()` (the `OutputResult` interface).  `fullOutput` is
`some c` when `fullOutputPath` is set and the file at that path, flushed and
closed by `dump`, holds contents `c`; `none` when `fullOutputPath` is absent. -/
structure OutputResult where
  output : List Char
  truncated : Bool
  fullOutput : Option (List Char)
deriving Repr, DecidableEq

/-- Translation of `OutputSink.dump(notice?)`: after awaiting the pending
chain, if a file exists, end it and return the notice line, an ellipsis and
the retained buffer tail with `truncated := true` and the file path set;
otherwise return the buffer with `truncated := false`. -/
def dump (notice : Option (List Char)) (s : SinkState) : OutputResult :=
  let noticeLine := match notice with
    | some n => ('[' :: n) ++ [']', '\n']
    | none => []
  match s.file with
  | some c =>
      { output := noticeLine ++ ('.' :: '.' :: '.' :: s.buffer),
        truncated := true, fullOutput := some c }
  | none =>
      { output := noticeLine ++ s.buffer, truncated := false, fullOutput := none }

/-- Unicode replacement character U+FFFD, emitted by `TextDecoder` for
malformed or prematurely terminated byte sequences. -/
def replChar : Char := Char.ofNat 0xFFFD

/-- Whether a byte is a UTF-8 continuation byte (`0x80 ≤ b < 0xC0`). -/
def isCont (b : Nat) : Bool := decide (0x80 ≤ b) && decide (b < 0xC0)

/-- Prepend a decoded character to the output of a decoder step. -/
def consOut (c : Char) (p : List Char × List Nat) : List Char × List Nat :=
  (c :: p.1, p.2)

/-- Incremental UTF-8 decode, modelling `TextDecoder.decode(chunk, stream:true)`
applied to the pending bytes followed by the new chunk: decode every complete
sequence, emit `replChar` for bytes that can no longer begin or continue a
valid sequence, and return as the new pending state a trailing sequence that is
incomplete but could still be completed by later bytes.  (Exact WHATWG
replacement positions for malformed interiors are approximated; the theorems
only exercise well-formed prefixes and incomplete tails.) -/
def decodeAux : Nat → List Nat → List Char × List Nat
  | 0, bs => ([], bs)
  | _ + 1, [] => ([], [])
  | fuel + 1, b :: rest =>
    if b < 0x80 then consOut (Char.ofNat b) (decodeAux fuel rest)
    else if b < 0xC2 then consOut replChar (decodeAux fuel rest)
    else if b < 0xE0 then
      match rest with
      | [] => ([], [b])
      | b1 :: rest1 =>
        if isCont b1 then
          consOut (Char.ofNat ((b - 0xC0) * 64 + (b1 - 0x80))) (decodeAux fuel rest1)
        else consOut replChar (decodeAux fuel rest)
    else if b < 0xF0 then
      match rest with
      | [] => ([], [b])
      | [b1] =>
        if isCont b1 then ([], [b, b1])
        else consOut replChar (decodeAux fuel rest)
      | b1 :: b2 :: rest2 =>
        if isCont b1 && isCont b2 then
          consOut (Char.ofNat ((b - 0xE0) * 4096 + (b1 - 0x80) * 64 + (b2 - 0x80)))
            (decodeAux fuel rest2)
        else consOut replChar (decodeAux fuel rest)
    else if b < 0xF5 then
      match rest with
      | [] => ([], [b])
      | [b1] =>
        if isCont b1 then ([], [b, b1])
        else consOut replChar (decodeAux fuel rest)
      | [b1, b2] =>
        if isCont b1 && isCont b2 then ([], [b, b1, b2])
        else consOut replChar (decodeAux fuel rest)
      | b1 :: b2 :: b3 :: rest3 =>
        if isCont b1 && isCont b2 && isCont b3 then
          consOut
            (Char.ofNat ((b - 0xF0) * 262144 + (b1 - 0x80) * 4096 + (b2 - 0x80) * 64 + (b3 - 0x80)))
            (decodeAux fuel rest3)
        else consOut replChar (decodeAux fuel rest)
    else consOut replChar (decodeAux fuel rest)

/-- Incremental decode of the pending bytes followed by the new chunk: the
fuel argument of `decodeAux` only bounds recursion depth and `length bs`
always suffices, since every step consumes at least one byte. -/
def decodeUtf8Stream (bs : List Nat) : List Char × List Nat :=
  decodeAux bs.length bs

/-- Final `TextDecoder.decode()` with no argument: flush the stream — a
nonempty pending (necessarily incomplete) sequence yields one replacement
character. -/
def decodeFlush (pending : List Nat) : List Char :=
  if pending = [] then [] else [replChar]

/-- One chunk written to the `WritableStream` returned by `createInput()`:
either a JS string or a `Uint8Array` of bytes. -/
inductive InChunk where
  | str (s : List Char)
  | bytes (bs : List Nat)

/-- State of one `createInput()` stream: `decoder` is `none` until the first
byte chunk arrives (the decoder is created lazily) and `some pending`
afterwards, where `pending` is the undecoded byte tail buffered inside the
decoder; `pushed` is the sequence of text chunks handed to `sink.push`, in
order. -/
structure InputState where
  decoder : Option (List Nat)
  pushed : List (List Char)
deriving Repr, DecidableEq

/-- Stream state before any chunk is written. -/
def initInput : InputState := { decoder := none, pushed := [] }

/-- Translation of the `write` callback of `createInput()`: a string chunk is
pushed directly; a byte chunk lazily creates the decoder (also reassigning the
local `finalize` variable to a closure that would flush it) and pushes the
incrementally decoded text. -/
def inputWrite (st : InputState) (c : InChunk) : InputState :=
  match c with
  | .str s => { st with pushed := st.pushed ++ [s] }
  | .bytes bs =>
      let pending := st.decoder.getD []
      let step := decodeUtf8Stream (pending ++ bs)
      { decoder := some step.2, pushed := st.pushed ++ [step.1] }

/-- Translation of the stream's `close` (and `abort`) callback.  In the source
the `WritableStream` is constructed with `close: finalize, abort: finalize`,
which store the value the local variable `finalize` has at construction time —
the initial `async () => {}`.  The later reassignment of `finalize` inside
`write` rebinds the variable only; the already-stored `close`/`abort`
properties keep the no-op.  Closing the stream therefore leaves the sink and
the decoder untouched. -/
def inputClose (st : InputState) : InputState := st

/-- Effect the reassigned `finalize` closure (`async () => { await
this.push(dec.decode()) }`) would have if it were invoked: flush the decoder
and push the flushed text.  The source creates this closure but, per
`inputClose`, never reaches it through the stream's `close`/`abort`. -/
def inputFinalizeVar (st : InputState) : InputState :=
  match st.decoder with
  | none => st
  | some pending => { decoder := some [], pushed := st.pushed ++ [decodeFlush pending] }

/-- Run a whole stream interaction: write the chunks in order, then close. -/
def runInput (chunks : List InChunk) : InputState :=
  inputClose (chunks.foldl inputWrite initInput)

end StreamingOutput

namespace EventBusM

/-- A raw handler passed to `bus.on`: given the event data it either returns
normally (`Except.ok`) or throws/rejects (`Except.error`).  Handlers live in
an environment `env : Nat → EvHandler δ ε`; a registration stores the index of
the raw handler it captured, so registering the same function twice is
expressed by two registrations carrying the same index. -/
def EvHandler (δ ε : Type) := δ → Except ε Unit

/-- One element of a channel's listener `Set` in `SimpleEventEmitter`.  The
source stores the `safeHandler` closure created by `createEventBus().on`;
`cid` models that closure's object identity (a fresh closure per `on` call)
and `idx` the raw handler it captured. -/
structure Registration where
  cid : Nat
  idx : Nat
deriving Repr, DecidableEq

/-- Translation of `SimpleEventEmitter.on`: ensure the channel has a listener
set and `Set.add` the handler — insertion-ordered, deduplicated by object
identity (`cid`). -/
def addListener : List (String × List Registration) → String → Registration →
    List (String × List Registration)
  | [], ch, r => [(ch, [r])]
  | (c, rs) :: t, ch, r =>
      if c = ch then
        (c, if rs.any (fun x => x.cid = r.cid) then rs else rs ++ [r]) :: t
      else (c, rs) :: addListener t ch r

/-- Translation of `SimpleEventEmitter.off`: `Set.delete` by object identity. -/
def removeListener : List (String × List Registration) → String → Nat →
    List (String × List Registration)
  | [], _, _ => []
  | (c, rs) :: t, ch, cid =>
      if c = ch then (c, rs.filter (fun x => x.cid ≠ cid)) :: t
      else (c, rs) :: removeListener t ch cid

/-- Listeners currently registered for a channel (`this.listeners.get(channel)`),
in insertion order. -/
def getListeners (ls : List (String × List Registration)) (ch : String) :
    List Registration :=
  match ls.find? (fun p => p.1 = ch) with
  | some p => p.2
  | none => []

/-- State of one bus from `createEventBus()`: the wrapped emitter's channel
map, plus a counter minting fresh closure identities. -/
structure BusState where
  emitter : List (String × List Registration)
  nextId : Nat
deriving Repr, DecidableEq

/-- A bus with no registrations. -/
def emptyBus : BusState := { emitter := [], nextId := 0 }

/-- Translation of `createEventBus().on(channel, handler)`: build a fresh
`safeHandler` closure around the raw handler and register it.  Returns the new
state and the identity of the registered closure; invoking the returned
unsubscribe closure is modelled by `busOff` with that identity. -/
def busOn (st : BusState) (ch : String) (idx : Nat) : BusState × Nat :=
  ({ emitter := addListener st.emitter ch { cid := st.nextId, idx := idx },
     nextId := st.nextId + 1 }, st.nextId)

/-- Translation of the unsubscribe closure returned by `on`:
`emitter.off(channel, safeHandler)`. -/
def busOff (st : BusState) (ch : String) (cid : Nat) : BusState :=
  { st with emitter := removeListener st.emitter ch cid }

/-- Synchronous behaviour of a handler stored in the emitter, as observed by
the `emit` loop: the trace of raw-handler indices it invokes, and a
synchronous exception if it throws one. -/
def SyncHandler (δ ε : Type) := δ → List Nat × Option ε

/-- Translation of `SimpleEventEmitter.emit`: call each handler in iteration
order; a synchronous throw from a handler aborts the loop and propagates to
the emitter (plain JS call semantics — nothing in the raw emitter catches). -/
def rawEmit {δ ε : Type} : List (SyncHandler δ ε) → δ → List Nat × Option ε
  | [], _ => ([], none)
  | h :: t, d =>
      let r := h d
      match r.2 with
      | some e => (r.1, some e)
      | none =>
          let r2 := rawEmit t d
          (r.1 ++ r2.1, r2.2)

/-- Synchronous behaviour of the `safeHandler` wrapper built by
`createEventBus().on`: it is an `async` function, so calling it never throws
synchronously; inside, `await handler(data)` runs the raw handler once and the
surrounding `try`/`catch` swallows a throw or rejection, logging it via
`console.error` with the channel name.  Either way the observable synchronous
outcome is one invocation of the raw handler and no exception. -/
def safeHandler {δ ε : Type} (env : Nat → EvHandler δ ε) (r : Registration) :
    SyncHandler δ ε :=
  fun d =>
    match env r.idx d with
    | .ok _ => ([r.idx], none)
    | .error _ => ([r.idx], none)

/-- Translation of `createEventBus().emit`: run the raw emitter over the
channel's registered `safeHandler`s.  Returns the trace of raw-handler
invocations and the exception, if any, that escapes to the caller of `emit`. -/
def busEmit {δ ε : Type} (env : Nat → EvHandler δ ε) (st : BusState)
    (ch : String) (d : δ) : List Nat × Option ε :=
  rawEmit ((getListeners st.emitter ch).map (safeHandler env)) d

/-- A concrete two-handler environment: handler 0 always throws `"boom"`,
every other handler returns normally. -/
def envBoom : Nat → EvHandler Unit String :=
  fun i _ => if i = 0 then .error "boom" else .ok ()

end EventBusM

namespace PrintModeM

/-- A tool result as passed to `ToolExecutionComponent.updateResult`
(`content` items abstracted to their text, plus the `isError` flag; the
untyped `details` bag carries no structure the claims touch). -/
structure ToolResult where
  content : List String
  isError : Bool
deriving Repr, DecidableEq

/-- Property access on the untyped `args` value, restricted to the three
fields `maybeComputeEditDiff` reads: each is `none` when absent (JS
`undefined`) and `some s` when present with string value `s`. -/
structure EditArgs where
  path : Option String
  oldText : Option String
  newText : Option String
deriving Repr, DecidableEq

/-- State of one `ToolExecutionComponent` (print-mode.ts), restricted to the
fields its lifecycle methods mutate.  `isPartialFlag` models the source field
`isPartial`, initialised `true`; `result` models `result`, initially absent;
`editDiffArgsKey` models `editDiffArgsKey`, the memo key of the last started
diff computation; `diffComputations` records, in order, the argument triple of
every `computeEditDiff` call the component has started (so its length is the
number of diff computations triggered).  Rendering state (`updateDisplay`,
boxes, images) is presentation-only and not modelled. -/
structure ToolExecutionComponent where
  toolName : String
  args : EditArgs
  isPartialFlag : Bool
  result : Option ToolResult
  editDiffArgsKey : Option (String × String × String)
  diffComputations : List (String × String × String)
deriving Repr, DecidableEq

/-- Translation of the constructor: store the tool name and initial args;
`isPartial = true`, no result, no memoized diff key. -/
def mkComponent (toolName : String) (args : EditArgs) : ToolExecutionComponent :=
  { toolName := toolName, args := args, isPartialFlag := true, result := none,
    editDiffArgsKey := none, diffComputations := [] }

/-- Translation of `updateArgs(args)`: overwrite `args` (and re-render, not
modelled). -/
def updateArgs (c : ToolExecutionComponent) (args : EditArgs) :
    ToolExecutionComponent :=
  { c with args := args }

/-- Translation of `maybeComputeEditDiff()`: return unless the tool is `edit`;
read `path`, `oldText`, `newText` off the args and return unless all three are
usable (`!path` also rejects the empty string; `oldText`/`newText` only need
to be present); build the memo key — `JSON.stringify` of the fixed-shape
object on the three string fields, which is injective in them and therefore
modelled by the triple itself — skip if it equals the stored key, otherwise
store it and start a `computeEditDiff` call.  The async application of the
finished diff to `editDiffPreview` (guarded by the same key) affects only
rendering and is not modelled; `diffComputations` records the started call. -/
def maybeComputeEditDiff (c : ToolExecutionComponent) : ToolExecutionComponent :=
  if c.toolName ≠ "edit" then c
  else
    match c.args.path, c.args.oldText, c.args.newText with
    | some path, some oldText, some newText =>
        if path = "" then c
        else
          let argsKey := (path, oldText, newText)
          if c.editDiffArgsKey = some argsKey then c
          else
            { c with editDiffArgsKey := some argsKey,
                     diffComputations := c.diffComputations ++ [argsKey] }
    | _, _, _ => c

/-- Translation of `setArgsComplete()`: trigger the edit-diff precomputation. -/
def setArgsComplete (c : ToolExecutionComponent) : ToolExecutionComponent :=
  maybeComputeEditDiff c

/-- Translation of `updateResult(result, isPartial)`: unconditionally store
the result and the partial flag (and re-render).  The source contains no
guard on the current state. -/
def updateResult (c : ToolExecutionComponent) (result : ToolResult)
    (partialFlag : Bool) : ToolExecutionComponent :=
  { c with result := some result, isPartialFlag := partialFlag }

/-- Apply a sequence of `updateResult` calls in order. -/
def applyUpdates (c : ToolExecutionComponent) (us : List (ToolResult × Bool)) :
    ToolExecutionComponent :=
  us.foldl (fun acc u => updateResult acc u.1 u.2) c

end PrintModeM

namespace SwarmExecutor

/-- A swarm agent definition (`SwarmAgent` from the swarm schema): immutable
once dispatched. -/
structure SwarmAgent where
  name : String
  role : String
  task : String
  extraContext : Option String
deriving Repr, DecidableEq

/-- Per-agent durable status values of `AgentRunState`. -/
inductive AgentStatus where
  | queued
  | running
  | completed
  | failed
deriving Repr, DecidableEq

/-- Render a status the way the executor interpolates it into log lines. -/
def AgentStatus.text : AgentStatus → String
  | .queued => "queued"
  | .running => "running"
  | .completed => "completed"
  | .failed => "failed"

/-- One partial-state object passed to `StateTracker.updateAgent` (merge
semantics): `none` fields are absent from the JS object literal. -/
structure AgentUpdate where
  status : Option AgentStatus
  iteration : Option Nat
  startedAt : Option Nat
  completedAt : Option Nat
  error : Option String
deriving Repr, DecidableEq

/-- Result record of a dispatched subagent run (`SingleResult`): `exitCode`
0 means success; `error` is an optional error string. -/
structure SingleResult where
  exitCode : Int
  error : Option String
deriving Repr, DecidableEq

/-- Everything `executeSwarmAgent` does that the claims observe: the
`updateAgent` calls and `appendLog` lines sent to the StateTracker in order,
the live-log lines and status updates sent to the pane multiplexer (empty
when the mux is unavailable), and the call's outcome — `Except.ok` the
returned result, or `Except.error` the re-thrown exception's message. -/
structure ExecTrace where
  runId : String
  updates : List AgentUpdate
  logs : List String
  muxLive : List String
  muxStatusCalls : List (String × String)
  outcome : Except String SingleResult
deriving Repr

/-- Translation of `buildSystemPrompt(agent)`: a role line, joined with the
extra context when that is present and truthy (a present-but-empty string is
falsy in JS and contributes nothing). -/
def buildSystemPrompt (agent : SwarmAgent) : String :=
  let base := "You are a " ++ agent.role ++ "."
  match agent.extraContext with
  | some ec => if ec = "" then base else base ++ "\n\n" ++ ec
  | none => base

/-- Translation of the run identifier built by `executeSwarmAgent`. -/
def agentRunId (swarmName : String) (agent : SwarmAgent) (iteration : Nat) :
    String :=
  "swarm-" ++ swarmName ++ "-" ++ agent.name ++ "-" ++ toString iteration

/-- Suffix the completion log line gets from `result.error`: nothing when the
error is absent or falsy (empty string). -/
def errorSuffix : Option String → String
  | some e => if e = "" then "" else ": " ++ e
  | none => ""

/-- Translation of `executeSwarmAgent(agent, index, options)`.  The dispatched
`runSubprocess` call is abstracted as `dispatch`: `Except.ok r` when the run
returns result `r`, `Except.error e` when it throws an exception whose
message is `e` (`err instanceof Error ? err.message : String(err)`).
`startTime` and `endTime` stand for the two `Date.now()` reads.  Before
dispatch the executor records `running` (with `iteration` and `startedAt`)
and an initial log line, and when the mux is available sets the pane status
to Working, starts log forwarding (not further modelled) and appends a live
line.  On normal return it records `completed` when `result.exitCode === 0`
and `failed` otherwise, always with `completedAt` and the result's `error`,
appends a final log line, mirrors status to the mux, and returns the result.
On a thrown exception it records `failed` with the message and `completedAt`,
appends a log line, appends a mux live line, and re-throws.  The per-progress
callback forwards condensed lines to the live log while the run is in flight
and is not part of this trace. -/
def executeSwarmAgent (agent : SwarmAgent) (swarmName : String)
    (iteration : Nat) (startTime endTime : Nat) (muxAvailable : Bool)
    (dispatch : Except String SingleResult) : ExecTrace :=
  let preUpdate : AgentUpdate :=
    { status := some .running, iteration := some iteration,
      startedAt := some startTime, completedAt := none, error := none }
  let preLog := "Starting iteration " ++ toString iteration
  let preMuxLive := if muxAvailable then [preLog] else []
  let preMuxStatus :=
    if muxAvailable then [("Working", agent.name ++ ": " ++ agent.role)] else []
  let runId := agentRunId swarmName agent iteration
  match dispatch with
  | .ok result =>
      let status : AgentStatus := if result.exitCode = 0 then .completed else .failed
      let finalUpdate : AgentUpdate :=
        { status := some status, iteration := none, startedAt := none,
          completedAt := some endTime, error := result.error }
      let finalLog :=
        "Iteration " ++ toString iteration ++ " " ++ status.text ++
          errorSuffix result.error
      let muxStatus := if status = .completed then "Done" else "Working"
      { runId := runId,
        updates := [preUpdate, finalUpdate],
        logs := [preLog, finalLog],
        muxLive := preMuxLive ++
          (if muxAvailable then ["Iteration " ++ toString iteration ++ " " ++ status.text]
           else []),
        muxStatusCalls := preMuxStatus ++
          (if muxAvailable then [(muxStatus, agent.name ++ ": " ++ status.text)]
           else []),
        outcome := .ok result }
  | .error e =>
      let finalUpdate : AgentUpdate :=
        { status := some .failed, iteration := none, startedAt := none,
          completedAt := some endTime, error := some e }
      let finalLog := "Iteration " ++ toString iteration ++ " error: " ++ e
      { runId := runId,
        updates := [preUpdate, finalUpdate],
        logs := [preLog, finalLog],
        muxLive := preMuxLive ++ (if muxAvailable then ["Error: " ++ e] else []),
        muxStatusCalls := preMuxStatus,
        outcome := .error e }

end SwarmExecutor

open StreamingOutput EventBusM PrintModeM SwarmExecutor

/-- Helper: the UTF-8 length of a replicated character. -/
theorem utf8Len_replicate (n : Nat) (c : Char) :
    utf8Len (List.replicate n c) = n * c.utf8Size := by
  simp [utf8Len, List.map_replicate, List.sum_replicate, smul_eq_mul]

/-- Helper: a single push whose byte length alone exceeds the threshold does
trigger the spill, and the file then holds exactly that chunk. -/
theorem runPushes_single_overflow (T : Nat) (data : List Char)
    (h : T < utf8Len data) :
    (runPushes T [data]).file = some data := by
  simp [runPushes, pushSanitized, initSink, h]

/-- Claim C1: the spec requires that whenever the cumulative sanitized size S
exceeds the spill threshold T, `dump()` reports `truncated = true` with
`fullOutputPath` set and the file holding all S bytes.  Evaluating the sink at
threshold 4 on the pushes "ab", "cd", "ef" (S = 6 > 4) shows the source never
spills — the overflow test reads `#bytesWritten`, which is never incremented —
so `dump()` returns `truncated = false` with no file and only the last 4
characters; the head of the stream is silently lost and the claim fails on
the code. -/
theorem C1_cumulative_overflow_never_spills :
    4 < ([['a', 'b'], ['c', 'd'], ['e', 'f']].map utf8Len).sum ∧
    dump none (runPushes 4 [['a', 'b'], ['c', 'd'], ['e', 'f']]) =
      { output := ['c', 'd', 'e', 'f'], truncated := false, fullOutput := none } := by
  decide

/-- Claim C5: the spec requires that when spill never triggers, the dumped
output equal the concatenation of the pushed chunks in call order.  At
threshold 2 with pushes "a", "b", "c" no spill ever triggers (no file exists
at any step), yet the dumped output is "bc", not "abc": the in-memory buffer
was cut without a backing file because the never-incremented `#bytesWritten`
keeps the overflow test false, so the claim fails on the code. -/
theorem C5_push_order_lost_without_spill :
    (runPushes 2 [['a']]).file = none ∧
    (runPushes 2 [['a'], ['b']]).file = none ∧
    (runPushes 2 [['a'], ['b'], ['c']]).file = none ∧
    (dump none (runPushes 2 [['a'], ['b'], ['c']])).truncated = false ∧
    (dump none (runPushes 2 [['a'], ['b'], ['c']])).output ≠ ['a', 'b', 'c'] := by
  decide

/-- Claim C6: a sink with spill threshold 1024 receiving a single push of
2000 'a' characters dumps with `truncated = true`, `fullOutputPath` set, and
the backing file holding exactly the 2000 'a' characters. -/
theorem C6_threshold_1024_single_2000_push :
    (dump none (runPushes 1024 [List.replicate 2000 'a'])).truncated = true ∧
    (dump none (runPushes 1024 [List.replicate 2000 'a'])).fullOutput =
      some (List.replicate 2000 'a') := by
  have h : 1024 < utf8Len (List.replicate 2000 'a') := by
    rw [utf8Len_replicate]; decide
  have hf := runPushes_single_overflow 1024 (List.replicate 2000 'a') h
  rw [dump, hf]
  exact ⟨rfl, rfl⟩

/-- Claim C7: the spec requires the byte decoder of a `createInput()` stream
to be created lazily (which it is) and flushed exactly once on close/abort so
that buffered bytes reach the sink.  The stream is constructed with
`close: finalize, abort: finalize` before `finalize` is reassigned, so the
stored callbacks are the initial no-op and the flush never runs: after
writing the incomplete UTF-8 prefix 0xE2 0x82 and closing, the decoder still
buffers both bytes and the sink received only the empty decoded prefix,
whereas the reassigned finalize would have pushed the flushed replacement
character.  The claim fails on the code. -/
theorem C7_close_never_flushes_decoder :
    (runInput [InChunk.bytes [0xE2, 0x82]]).decoder = some [0xE2, 0x82] ∧
    (runInput [InChunk.bytes [0xE2, 0x82]]).pushed = [[]] ∧
    (inputFinalizeVar (runInput [InChunk.bytes [0xE2, 0x82]])).pushed =
      [[], [replChar]] := by
  decide

/-- Claim C2 counterexample: `updateResult` stores whatever it is given, with
no guard on the current state — after a terminal update (`isPartial = false`),
a further call with `isPartial = true` replaces the terminal result and puts
the component back into the partial state, so the subsequent call is neither
a no-op nor rejected. -/
theorem C2_terminal_update_not_guarded :
    (updateResult (mkComponent "bash" { path := none, oldText := none, newText := none })
        { content := ["done"], isError := false } false).isPartialFlag = false ∧
    (updateResult
        (updateResult (mkComponent "bash" { path := none, oldText := none, newText := none })
          { content := ["done"], isError := false } false)
        { content := ["later"], isError := false } true).isPartialFlag = true ∧
    (updateResult
        (updateResult (mkComponent "bash" { path := none, oldText := none, newText := none })
          { content := ["done"], isError := false } false)
        { content := ["later"], isError := false } true).result =
      some { content := ["later"], isError := false } ∧
    ({ content := ["later"], isError := false } : ToolResult) ≠
      { content := ["done"], isError := false } := by
  decide

/-- Claim C2 (amended): `updateResult` is last-write-wins — after any sequence
of `updateResult` calls, the stored result and partial flag are exactly those
of the most recent call; the component has no guard that freezes a terminal
state, so callers must issue exactly one terminal update. -/
theorem C2_updateResult_last_write_wins (c : ToolExecutionComponent)
    (us : List (ToolResult × Bool)) (r : ToolResult) (p : Bool) :
    (applyUpdates c (us ++ [(r, p)])).result = some r ∧
    (applyUpdates c (us ++ [(r, p)])).isPartialFlag = p := by
  simp [applyUpdates, List.foldl_append, updateResult]

/-- Claim C4: for the `edit` tool, supplying a complete argument triple via
`updateArgs` + `setArgsComplete` starts one diff computation; doing so again
with a structurally equal triple starts none (the memo key matches), while a
triple differing in any field starts exactly one more.  Key equality is
content equality of the three fields, not object identity. -/
theorem C4_edit_diff_memoization (p o n p2 o2 n2 : String)
    (hp : p ≠ "") (hp2 : p2 ≠ "") :
    (setArgsComplete (updateArgs
        (mkComponent "edit" { path := none, oldText := none, newText := none })
        { path := some p, oldText := some o, newText := some n })).diffComputations =
      [(p, o, n)] ∧
    ((p, o, n) = (p2, o2, n2) →
      (setArgsComplete (updateArgs
          (setArgsComplete (updateArgs
            (mkComponent "edit" { path := none, oldText := none, newText := none })
            { path := some p, oldText := some o, newText := some n }))
          { path := some p2, oldText := some o2, newText := some n2 })).diffComputations =
        [(p, o, n)]) ∧
    ((p, o, n) ≠ (p2, o2, n2) →
      (setArgsComplete (updateArgs
          (setArgsComplete (updateArgs
            (mkComponent "edit" { path := none, oldText := none, newText := none })
            { path := some p, oldText := some o, newText := some n }))
          { path := some p2, oldText := some o2, newText := some n2 })).diffComputations =
        [(p, o, n), (p2, o2, n2)]) := by
  refine ⟨?_, ?_, ?_⟩
  · simp [setArgsComplete, maybeComputeEditDiff, updateArgs, mkComponent, hp]
  · intro h
    simp [setArgsComplete, maybeComputeEditDiff, updateArgs, mkComponent, hp, hp2, h]
  · intro h
    simp [setArgsComplete, maybeComputeEditDiff, updateArgs, mkComponent, hp, hp2, h]

/-- Witness for C4 at concrete arguments: same triple skips recomputation,
and a changed `newText` recomputes. -/
theorem C4_edit_diff_memoization_witness :
    ("f.txt" : String) ≠ "" ∧
    ((setArgsComplete (updateArgs
        (mkComponent "edit" { path := none, oldText := none, newText := none })
        { path := some "f.txt", oldText := some "x", newText := some "y" })).diffComputations =
      [("f.txt", "x", "y")] ∧
    (("f.txt", "x", "y") = (("f.txt", "x", "z") : String × String × String) →
      (setArgsComplete (updateArgs
          (setArgsComplete (updateArgs
            (mkComponent "edit" { path := none, oldText := none, newText := none })
            { path := some "f.txt", oldText := some "x", newText := some "y" }))
          { path := some "f.txt", oldText := some "x", newText := some "z" })).diffComputations =
        [("f.txt", "x", "y")]) ∧
    (("f.txt", "x", "y") ≠ (("f.txt", "x", "z") : String × String × String) →
      (setArgsComplete (updateArgs
          (setArgsComplete (updateArgs
            (mkComponent "edit" { path := none, oldText := none, newText := none })
            { path := some "f.txt", oldText := some "x", newText := some "y" }))
          { path := some "f.txt", oldText := some "x", newText := some "z" })).diffComputations =
        [("f.txt", "x", "y"), ("f.txt", "x", "z")])) :=
  ⟨by decide, C4_edit_diff_memoization "f.txt" "x" "y" "f.txt" "x" "z" (by decide) (by decide)⟩

/-- Claim C3: with two handlers registered on one channel, the first of which
throws synchronously (or rejects) while the second returns normally, a single
`emit` still invokes the second handler exactly once and no exception reaches
the caller of `emit`: each registration is wrapped in an `async` safeHandler
whose try/catch swallows the failure, so the raw emitter loop sees no
synchronous throw. -/
theorem C3_emit_isolates_throwing_handler {δ ε : Type}
    (env : Nat → EvHandler δ ε) (ch : String) (d : δ) (e : ε)
    (h1 : env 0 d = .error e) (h2 : env 1 d = .ok ()) :
    busEmit env ((busOn ((busOn emptyBus ch 0).1) ch 1).1) ch d = ([0, 1], none) := by
  simp [busEmit, busOn, emptyBus, addListener, getListeners, rawEmit, safeHandler, h1, h2]

/-- Witness for C3: the concrete environment `envBoom`, whose handler 0
throws `"boom"` and handler 1 returns normally. -/
theorem C3_emit_isolates_throwing_handler_witness :
    envBoom 0 () = .error "boom" ∧ envBoom 1 () = .ok () ∧
    busEmit envBoom ((busOn ((busOn emptyBus "tool" 0).1) "tool" 1).1) "tool" () =
      ([0, 1], none) :=
  ⟨rfl, rfl, C3_emit_isolates_throwing_handler envBoom "tool" () "boom" rfl rfl⟩

/-- Claim C10: registering the same raw handler twice on one channel creates
two independent registrations — each `on` call builds a fresh safeHandler
closure, so the identity-keyed `Set` dedupes nothing: one emit invokes the raw
handler twice, and the unsubscribe closure returned by the first `on` removes
only its own registration, after which an emit still invokes the handler once
through the surviving registration. -/
theorem C10_duplicate_registration_independent {δ ε : Type}
    (env : Nat → EvHandler δ ε) (ch : String) (idx : Nat) (d : δ) :
    getListeners ((busOn ((busOn emptyBus ch idx).1) ch idx).1).emitter ch =
      [{ cid := 0, idx := idx }, { cid := 1, idx := idx }] ∧
    (busEmit env ((busOn ((busOn emptyBus ch idx).1) ch idx).1) ch d).1 =
      [idx, idx] ∧
    getListeners (busOff ((busOn ((busOn emptyBus ch idx).1) ch idx).1) ch
        ((busOn emptyBus ch idx).2)).emitter ch = [{ cid := 1, idx := idx }] ∧
    (busEmit env (busOff ((busOn ((busOn emptyBus ch idx).1) ch idx).1) ch
        ((busOn emptyBus ch idx).2)) ch d).1 = [idx] := by
  cases henv : env idx d <;>
    simp [busEmit, busOn, busOff, emptyBus, addListener, removeListener,
      getListeners, rawEmit, safeHandler, henv]

/-- Claim C8: when the dispatched run returns normally, `executeSwarmAgent`
records a final durable update whose status is `completed` exactly when the
result's exit code is 0 and `failed` otherwise, carrying the result's `error`
and a `completedAt` timestamp; across the trace, `completedAt` is present in
an update exactly when that update's status is `completed` or `failed`; the
result is returned unchanged. -/
theorem C8_completion_status_and_completedAt (agent : SwarmAgent)
    (sw : String) (iter t1 t2 : Nat) (mux : Bool) (r : SingleResult) :
    (executeSwarmAgent agent sw iter t1 t2 mux (.ok r)).outcome = .ok r ∧
    (executeSwarmAgent agent sw iter t1 t2 mux (.ok r)).updates.getLast? =
      some { status := some (if r.exitCode = 0 then .completed else .failed),
             iteration := none, startedAt := none,
             completedAt := some t2, error := r.error } ∧
    ((if r.exitCode = 0 then AgentStatus.completed else AgentStatus.failed) =
        AgentStatus.completed ↔ r.exitCode = 0) ∧
    ∀ u ∈ (executeSwarmAgent agent sw iter t1 t2 mux (.ok r)).updates,
      (u.completedAt.isSome ↔
        (u.status = some AgentStatus.completed ∨ u.status = some AgentStatus.failed)) := by
  by_cases hz : r.exitCode = 0 <;>
    simp [executeSwarmAgent, hz]

/-- Claim C9: when the dispatch itself throws, `executeSwarmAgent` records a
final durable update marking the agent `failed` with the exception's message
and a `completedAt` timestamp, appends a log line carrying the message, and
re-throws the exception to the caller. -/
theorem C9_dispatch_exception_recorded_and_rethrown (agent : SwarmAgent)
    (sw : String) (iter t1 t2 : Nat) (mux : Bool) (e : String) :
    (executeSwarmAgent agent sw iter t1 t2 mux (.error e)).outcome = .error e ∧
    (executeSwarmAgent agent sw iter t1 t2 mux (.error e)).updates.getLast? =
      some { status := some AgentStatus.failed, iteration := none,
             startedAt := none, completedAt := some t2, error := some e } ∧
    (executeSwarmAgent agent sw iter t1 t2 mux (.error e)).logs =
      ["Starting iteration " ++ toString iter,
       "Iteration " ++ toString iter ++ " error: " ++ e] := by
  simp [executeSwarmAgent]
